/-
Verification of the MILP model formulation in
cea/concept_project/algorithm_planning_lp/pyomo_multi_linetype.py
(electric network planning, CityEnergyAnalyst concept project).

Embedding conventions:
* Python floats are idealised as exact rationals (ℚ).  In particular the
  constant numpy.pi is embedded as the exact rational value of the IEEE-754
  double that numpy stores, and a Python ZeroDivisionError corresponds to an
  exactly-zero denominator.
* A value that may be NaN or absent (the GRID0_kW column) is an Option ℚ,
  with none standing for NaN/absent; np.isnan tests for none.
* A pyomo constraint (an equality or inequality between expressions in the
  model variables) is embedded as a Prop over an assignment of values to all
  model variables.  A rule that can raise (KeyError on a missing dict key,
  NotImplementedError on an unknown cost type) returns Option Prop, with
  none standing for the raised exception.
* The module-level configuration constants imported from lp_config
  (S_BASE, V_BASE, I_BASE, INTEREST_RATE, APPROX_LOSS_HOURS,
  ELECTRICITY_COST) are threaded through an explicit LPConfig record.
-/
import Mathlib

/-- Configuration constants imported from lp_config by the source module. -/
structure LPConfig where
  S_BASE : ℚ
  V_BASE : ℚ
  I_BASE : ℚ
  INTEREST_RATE : ℚ
  APPROX_LOSS_HOURS : ℚ
  ELECTRICITY_COST : ℚ

/-- One row of the cable catalogue (electric_line_data.csv), i.e. one entry
of dict_line_tech, after main() has attached the annuity_factor field. -/
structure LineTech where
  x_ohm_per_km : ℚ
  r_ohm_per_km : ℚ
  I_max_A : ℚ
  price_sgd_per_m : ℚ
  annuity_factor : ℚ
  om_factor : ℚ

/-- One row of the df_nodes table.  ntype is the column named Type
(PLANT or CONSUMER); GRID0_kW is the demand column, none for NaN/absent. -/
structure NodeRow where
  ntype : String
  GRID0_kW : Option ℚ

/-- The assembled pyomo ConcreteModel: index sets and parameter
dictionaries (the variables live in Assign).  Mirrors the Set/parameter
declarations of main(). -/
structure GridModel where
  set_nodes : List ℕ
  set_nodes_sub : List ℕ
  set_nodes_consum : List ℕ
  set_edge : List (ℕ × ℕ)
  set_linetypes : List ℕ
  set_cost_type : List String
  dict_length : ℕ × ℕ → ℚ
  dict_line_tech : ℕ → LineTech
  dict_power_demand : List (ℕ × ℚ)

/-- A valuation of every pyomo variable of the model (what a solver
returns).  Mirrors the Var declarations of main(). -/
structure Assign where
  var_x : ℕ → ℕ → ℕ → ℚ
  var_theta : ℕ → ℚ
  var_power_sub : ℕ → ℚ
  var_power_over_line : ℕ → ℕ → ℕ → ℚ
  var_slack : ℕ → ℕ → ℕ → ℚ
  var_costs : String → ℚ

/-- The exact rational value of the IEEE-754 double numpy.pi used by
power_over_line_rule (np.pi). -/
def np_pi : ℚ := 884279719003555 / 281474976710656

/-- annuity_factor(n, i) = (1+i)**n * i / ((1+i)**n - 1).  Both Python
ZeroDivisionError paths are embedded as none: raising the zero base
1 + i = 0.0 to a negative power n, and dividing by an exactly-zero
denominator (1+i)**n - 1.  (For 1 + i = 0 with n >= 0 Python's ** returns
0.0 or 1.0, as zpow does.) -/
def annuity_factor (n : ℤ) (i : ℚ) : Option ℚ :=
  if 1 + i = 0 ∧ n < 0 then none
  else if (1 + i) ^ n - 1 = 0 then none
  else some ((1 + i) ^ n * i / ((1 + i) ^ n - 1))

/-- Sum over the inner linetype loop of power_balance_rule:
the total power over line (i, j) across all cable types. -/
def line_flow_sum (m : GridModel) (a : Assign) (i j : ℕ) : ℚ :=
  (m.set_linetypes.map fun t => a.var_power_over_line i j t).sum

/-- The value p_node_in accumulated by power_balance_rule: substation
injection (if i is a substation) plus flows from the two node loops. -/
def p_node_in (m : GridModel) (a : Assign) (i : ℕ) : ℚ :=
  (if i ∈ m.set_nodes_sub then a.var_power_sub i else 0)
  + (m.set_nodes.map fun j =>
      if i ≠ j ∧ i < j then line_flow_sum m a i j else 0).sum
  - (m.set_nodes.map fun j =>
      if i ≠ j ∧ i > j then line_flow_sum m a j i else 0).sum

/-- power_balance_rule(m, i): p_node_out == p_node_in where
p_node_out = float(m.dict_power_demand[i]).  The dict lookup raises
KeyError when i is not a key, embedded as none. -/
def power_balance_rule (m : GridModel) (a : Assign) (i : ℕ) : Option Prop :=
  (m.dict_power_demand.lookup i).map fun d => d = p_node_in m a i

/-- power_over_line_rule(m, i, j, t): the DC-power-flow linearisation,
var_power_over_line == ((theta_i - theta_j) * np.pi / 180)
/ (length * x_ohm_per_km / 1000) + slack. -/
def power_over_line_rule (m : GridModel) (a : Assign) (i j t : ℕ) : Prop :=
  a.var_power_over_line i j t =
    ((a.var_theta i - a.var_theta j) * np_pi / 180)
      / (m.dict_length (i, j) * (m.dict_line_tech t).x_ohm_per_km / 1000)
    + a.var_slack i j t

/-- slack_voltage_angle_rule(m, i): var_theta[i] == 0.0. -/
def slack_voltage_angle_rule (m : GridModel) (a : Assign) (i : ℕ) : Prop :=
  a.var_theta i = 0

/-- slack_pos_rule(m, i, j, t): var_slack <= (1 - var_x) * 1000000. -/
def slack_pos_rule (m : GridModel) (a : Assign) (i j t : ℕ) : Prop :=
  a.var_slack i j t ≤ (1 - a.var_x i j t) * 1000000

/-- slack_neg_rule(m, i, j, t): var_slack >= (-1) * (1 - var_x) * 1000000. -/
def slack_neg_rule (m : GridModel) (a : Assign) (i j t : ℕ) : Prop :=
  a.var_slack i j t ≥ (-1) * (1 - a.var_x i j t) * 1000000

/-- power_over_line_rule_pos_rule(m, i, j, t): power over the line is at
most x * (I_max_A * V_BASE * 10^3) / (S_BASE * 10^6). -/
def power_over_line_rule_pos_rule (cfg : LPConfig) (m : GridModel)
    (a : Assign) (i j t : ℕ) : Prop :=
  a.var_power_over_line i j t ≤
    a.var_x i j t * ((m.dict_line_tech t).I_max_A * cfg.V_BASE * 10 ^ 3)
      / (cfg.S_BASE * 10 ^ 6)

/-- power_over_line_rule_neg_rule(m, i, j, t): mirror lower bound. -/
def power_over_line_rule_neg_rule (cfg : LPConfig) (m : GridModel)
    (a : Assign) (i j t : ℕ) : Prop :=
  a.var_power_over_line i j t ≥
    (-1) * a.var_x i j t * ((m.dict_line_tech t).I_max_A * cfg.V_BASE * 10 ^ 3)
      / (cfg.S_BASE * 10 ^ 6)

/-- radial_rule(m): summation(m.var_x) == len(set_nodes) - len(set_nodes_sub).
summation ranges over the full index set set_edge * set_linetypes of var_x. -/
def radial_rule (m : GridModel) (a : Assign) : Prop :=
  (m.set_edge.flatMap fun e =>
      m.set_linetypes.map fun t => a.var_x e.1 e.2 t).sum
    = (m.set_nodes.length : ℚ) - (m.set_nodes_sub.length : ℚ)

/-- The radiality constraints attached to the model: line 430 declares a
single scalar Constraint(rule=radial_rule), hence a one-element family. -/
def radial_constraint_list (m : GridModel) (a : Assign) : List Prop :=
  [radial_rule m a]

/-- one_linetype_rule(m, i, j): sum over t of var_x[i, j, t] <= 1. -/
def one_linetype_rule (m : GridModel) (a : Assign) (i j : ℕ) : Prop :=
  (m.set_linetypes.map fun t => a.var_x i j t).sum ≤ 1

/-- cost_rule(m, cost_type).  Returns none for the NotImplementedError
branch on an unknown cost type. -/
def cost_rule (cfg : LPConfig) (m : GridModel) (a : Assign)
    (cost_type : String) : Option Prop :=
  if cost_type = "investment" then
    some (a.var_costs ("investment") =
      (m.set_edge.map fun e =>
        (m.set_linetypes.map fun t =>
          2 * (a.var_x e.1 e.2 t * m.dict_length e)
            * (m.dict_line_tech t).price_sgd_per_m
            * (m.dict_line_tech t).annuity_factor).sum).sum)
  else if cost_type = "om" then
    some (a.var_costs ("om") =
      a.var_costs ("investment") * (m.dict_line_tech 0).om_factor)
  else if cost_type = "losses" then
    some (a.var_costs ("losses") =
      (m.set_edge.map fun e =>
        (m.set_linetypes.map fun t =>
          (a.var_power_over_line e.1 e.2 t * cfg.I_BASE) ^ 2
            * m.dict_length e * ((m.dict_line_tech t).r_ohm_per_km / 1000)
            * cfg.APPROX_LOSS_HOURS
            * (cfg.ELECTRICITY_COST * 10 ^ (-3 : ℤ))).sum).sum)
  else none

/-- obj_rule(m): the objective value, the sum of var_costs over
set_cost_type. -/
def obj_rule (m : GridModel) (a : Assign) : ℚ :=
  (m.set_cost_type.map fun c => a.var_costs c).sum

/-- The doubly nested node loop of main() that builds idx_edge, with the
outer iteration list made explicit for induction. -/
def diag_aux (outer inner : List ℕ) : List (ℕ × ℕ) :=
  outer.flatMap fun i =>
    (inner.filter fun j => decide (i ≠ j ∧ i < j)).map fun j => (i, j)

/-- idx_edge of main(): all pairs (i, j) of nodes with i != j and i < j,
in the nested iteration order of the source. -/
def diag_edges (nodes : List ℕ) : List (ℕ × ℕ) := diag_aux nodes nodes

/-- The dict_power_demand preprocessing loop of main(): rows whose
GRID0_kW is NaN are skipped, the rest are scaled to per-unit by
3.0 * (kW * 10^3) / (S_BASE * 10^6). -/
def build_power_demand (cfg : LPConfig) (df_nodes : List (ℕ × NodeRow)) :
    List (ℕ × ℚ) :=
  df_nodes.filterMap fun p =>
    match p.2.GRID0_kW with
    | none => none
    | some w => some (p.1, 3 * (w * 10 ^ 3) / (cfg.S_BASE * 10 ^ 6))

/-- The index/set/parameter assembly of main(), from the node table, the
length dictionary and the cable catalogue.  The catalogue is taken as the
pair of an entry function and the number of entries, already carrying its
annuity_factor field (main() fills that field from
annuity_factor(40, INTEREST_RATE) before assembly). -/
def mainModel (cfg : LPConfig) (df_nodes : List (ℕ × NodeRow))
    (dict_length : ℕ × ℕ → ℚ) (line_tech : ℕ → LineTech)
    (n_linetypes : ℕ) : GridModel :=
  let idx_nodes_sub := (df_nodes.filter fun p => p.2.ntype == "PLANT").map
    fun p => p.1
  let idx_nodes_consum :=
    (df_nodes.filter fun p => p.2.ntype == "CONSUMER").map fun p => p.1
  let idx_nodes := idx_nodes_sub ++ idx_nodes_consum
  { set_nodes := idx_nodes
    set_nodes_sub := idx_nodes_sub
    set_nodes_consum := idx_nodes_consum
    set_edge := diag_edges idx_nodes
    set_linetypes := List.range n_linetypes
    set_cost_type := ["investment", "om"]
    dict_length := dict_length
    dict_line_tech := line_tech
    dict_power_demand := build_power_demand cfg df_nodes }

/-- A possibly-raising constraint holds: the rule did not raise and the
produced constraint is satisfied. -/
def option_holds : Option Prop → Prop
  | none => False
  | some P => P

/-- A variable assignment is feasible for the assembled model: every
constraint instance declared by main() (lines 421-437) is satisfied. -/
def feasible (cfg : LPConfig) (m : GridModel) (a : Assign) : Prop :=
  (∀ i ∈ m.set_nodes, option_holds (power_balance_rule m a i)) ∧
  (∀ e ∈ m.set_edge, ∀ t ∈ m.set_linetypes,
    power_over_line_rule m a e.1 e.2 t ∧
    slack_neg_rule m a e.1 e.2 t ∧
    slack_pos_rule m a e.1 e.2 t ∧
    power_over_line_rule_neg_rule cfg m a e.1 e.2 t ∧
    power_over_line_rule_pos_rule cfg m a e.1 e.2 t) ∧
  (∀ i ∈ m.set_nodes_sub, slack_voltage_angle_rule m a i) ∧
  radial_rule m a ∧
  (∀ e ∈ m.set_edge, one_linetype_rule m a e.1 e.2) ∧
  (∀ c ∈ m.set_cost_type, option_holds (cost_rule cfg m a c))

/-- Spec 4.3 power-balance inflow: substation injection (exactly when i is
a substation) plus powerOverLine[i, j, t] for every edge where i is the
lower index minus powerOverLine[j, i, t] for every edge where i is the
higher index, summed over all cable types. -/
def spec_inflow (m : GridModel) (a : Assign) (i : ℕ) : ℚ :=
  (if i ∈ m.set_nodes_sub then a.var_power_sub i else 0)
  + ((m.set_edge.filter fun e => e.1 == i).map fun e =>
      line_flow_sum m a e.1 e.2).sum
  - ((m.set_edge.filter fun e => e.2 == i).map fun e =>
      line_flow_sum m a e.1 e.2).sum

/-- Spec 4.3 flow linearisation:
powerOverLine = (theta_i - theta_j) * (pi/180)
/ (length * x_per_km / 1000) + slack. -/
def spec_power_over_line (m : GridModel) (a : Assign) (i j t : ℕ) : Prop :=
  a.var_power_over_line i j t =
    (a.var_theta i - a.var_theta j) * (np_pi / 180)
      / (m.dict_length (i, j) * (m.dict_line_tech t).x_ohm_per_km / 1000)
    + a.var_slack i j t

/-- Spec 4.3 investment cost: the double sum of
2 * x[i, j, t] * length[i, j] * price[t] * annuity[t]. -/
def spec_investment_cost (m : GridModel) (a : Assign) : ℚ :=
  (m.set_edge.map fun e =>
    (m.set_linetypes.map fun t =>
      2 * a.var_x e.1 e.2 t * m.dict_length e
        * (m.dict_line_tech t).price_sgd_per_m
        * (m.dict_line_tech t).annuity_factor).sum).sum

/-- Spec 4.3 radiality: the sum of x[i, j, t] over all edges and all cable
types equals the number of nodes minus the number of substations. -/
def spec_radial (m : GridModel) (a : Assign) : Prop :=
  (m.set_edge.map fun e =>
      (m.set_linetypes.map fun t => a.var_x e.1 e.2 t).sum).sum
    = (m.set_nodes.length : ℚ) - (m.set_nodes_sub.length : ℚ)

-- ============================
-- Helper lemmas
-- ============================

theorem sum_flatMap_eq {α : Type} (l : List α) (f : α → List ℚ) :
    (l.flatMap f).sum = (l.map fun x => (f x).sum).sum := by
  induction l with
  | nil => rfl
  | cons x xs ih => simp [List.flatMap_cons, ih]

theorem diag_aux_cons (o : ℕ) (os inner : List ℕ) :
    diag_aux (o :: os) inner =
      ((inner.filter fun j => decide (o ≠ j ∧ o < j)).map fun j => (o, j))
        ++ diag_aux os inner := by
  simp [diag_aux]

theorem filter_fst_of_ne {o i : ℕ} (h : o ≠ i) (l : List ℕ) :
    ((l.map fun j => (o, j)).filter fun e => e.1 == i) = [] := by
  induction l with
  | nil => rfl
  | cons x xs ih => simpa [List.filter_cons, h] using ih

theorem filter_fst_self (i : ℕ) (l : List ℕ) :
    ((l.map fun j => (i, j)).filter fun e => e.1 == i)
      = l.map fun j => (i, j) := by
  induction l with
  | nil => rfl
  | cons x xs ih => simpa [List.filter_cons] using ih

theorem filter_fst_diag_aux_nil {i : ℕ} (outer inner : List ℕ)
    (h : i ∉ outer) :
    ((diag_aux outer inner).filter fun e => e.1 == i) = [] := by
  induction outer with
  | nil => rfl
  | cons o os ih =>
    have ho : o ≠ i := by
      rintro rfl
      exact h (List.mem_cons_self o os)
    have h' : i ∉ os := fun hm => h (List.mem_cons_of_mem o hm)
    rw [diag_aux_cons, List.filter_append, filter_fst_of_ne ho,
      List.nil_append]
    exact ih h'

theorem filter_fst_diag_aux (outer inner : List ℕ) (i : ℕ)
    (hnd : outer.Nodup) (hi : i ∈ outer) :
    ((diag_aux outer inner).filter fun e => e.1 == i) =
      (inner.filter fun j => decide (i ≠ j ∧ i < j)).map fun j => (i, j) := by
  induction outer with
  | nil => cases hi
  | cons o os ih =>
    rw [diag_aux_cons, List.filter_append]
    rcases List.mem_cons.mp hi with rfl | hmem
    · rw [filter_fst_self,
        filter_fst_diag_aux_nil os inner (List.nodup_cons.mp hnd).1,
        List.append_nil]
    · have ho : o ≠ i := by
        rintro rfl
        exact (List.nodup_cons.mp hnd).1 hmem
      rw [filter_fst_of_ne ho, List.nil_append]
      exact ih (List.nodup_cons.mp hnd).2 hmem

theorem filter_beq_nil_of_not_mem (l : List ℕ) (p : ℕ → Bool) {i : ℕ}
    (h : i ∉ l) :
    ((l.filter p).filter fun j => j == i) = [] := by
  induction l with
  | nil => rfl
  | cons x xs ih =>
    have hx : x ≠ i := by
      rintro rfl
      exact h (List.mem_cons_self x xs)
    have h' : i ∉ xs := fun hm => h (List.mem_cons_of_mem x hm)
    rw [List.filter_cons]
    by_cases hp : p x
    · simpa [hp, List.filter_cons, hx] using ih h'
    · simpa [hp] using ih h'

theorem filter_filter_eq_single (l : List ℕ) (p : ℕ → Bool) (i : ℕ)
    (hnd : l.Nodup) (hi : i ∈ l) :
    ((l.filter p).filter fun j => j == i) = if p i then [i] else [] := by
  induction l with
  | nil => cases hi
  | cons x xs ih =>
    rw [List.filter_cons]
    rcases List.mem_cons.mp hi with rfl | hmem
    · have h' : i ∉ xs := (List.nodup_cons.mp hnd).1
      by_cases hp : p i
      · simp [hp, List.filter_cons, filter_beq_nil_of_not_mem xs p h']
      · simp [hp, filter_beq_nil_of_not_mem xs p h']
    · have hx : x ≠ i := by
        rintro rfl
        exact (List.nodup_cons.mp hnd).1 hmem
      by_cases hp : p x
      · simpa [hp, List.filter_cons, hx]
          using ih (List.nodup_cons.mp hnd).2 hmem
      · simpa [hp] using ih (List.nodup_cons.mp hnd).2 hmem

theorem filter_snd_blk (o i : ℕ) (inner : List ℕ) (hnd : inner.Nodup)
    (hi : i ∈ inner) :
    (((inner.filter fun j => decide (o ≠ j ∧ o < j)).map
        fun j => (o, j)).filter fun e => e.2 == i)
      = if o ≠ i ∧ o < i then [(o, i)] else [] := by
  rw [List.filter_map]
  have hcomp : ((fun e : ℕ × ℕ => e.2 == i) ∘ fun j => (o, j))
      = fun j => j == i := rfl
  rw [hcomp, filter_filter_eq_single inner _ i hnd hi]
  by_cases h : o ≠ i ∧ o < i
  · simp [h]
  · simp [h]

theorem filter_snd_diag_aux (outer inner : List ℕ) (i : ℕ)
    (hnd : inner.Nodup) (hi : i ∈ inner) :
    ((diag_aux outer inner).filter fun e => e.2 == i) =
      (outer.filter fun j => decide (j ≠ i ∧ j < i)).map fun j => (j, i) := by
  induction outer with
  | nil => rfl
  | cons o os ih =>
    rw [diag_aux_cons, List.filter_append,
      filter_snd_blk o i inner hnd hi, ih, List.filter_cons]
    by_cases h : o ≠ i ∧ o < i
    · simp [h]
    · simp [h]

theorem sum_filter_map_if (l : List ℕ) (p : ℕ → Prop) [DecidablePred p]
    (g : ℕ → ℚ) :
    ((l.filter fun j => decide (p j)).map g).sum
      = (l.map fun j => if p j then g j else 0).sum := by
  induction l with
  | nil => rfl
  | cons x xs ih =>
    rw [List.filter_cons]
    by_cases h : p x
    · simp [h, ih]
    · simp [h, ih]

theorem p_node_in_eq_spec_inflow (m : GridModel) (a : Assign) (i : ℕ)
    (hedge : m.set_edge = diag_edges m.set_nodes)
    (hnd : m.set_nodes.Nodup) (hi : i ∈ m.set_nodes) :
    p_node_in m a i = spec_inflow m a i := by
  unfold p_node_in spec_inflow
  rw [hedge]
  have h1 : (((diag_edges m.set_nodes).filter fun e => e.1 == i).map
        fun e => line_flow_sum m a e.1 e.2).sum
      = (m.set_nodes.map fun j =>
          if i ≠ j ∧ i < j then line_flow_sum m a i j else 0).sum := by
    rw [show diag_edges m.set_nodes = diag_aux m.set_nodes m.set_nodes
        from rfl,
      filter_fst_diag_aux m.set_nodes m.set_nodes i hnd hi, List.map_map]
    have hc : ((fun e : ℕ × ℕ => line_flow_sum m a e.1 e.2) ∘ fun j => (i, j))
        = fun j => line_flow_sum m a i j := rfl
    rw [hc, sum_filter_map_if m.set_nodes (fun j => i ≠ j ∧ i < j)
      (fun j => line_flow_sum m a i j)]
  have h2 : (((diag_edges m.set_nodes).filter fun e => e.2 == i).map
        fun e => line_flow_sum m a e.1 e.2).sum
      = (m.set_nodes.map fun j =>
          if i ≠ j ∧ i > j then line_flow_sum m a j i else 0).sum := by
    rw [show diag_edges m.set_nodes = diag_aux m.set_nodes m.set_nodes
        from rfl,
      filter_snd_diag_aux m.set_nodes m.set_nodes i hnd hi, List.map_map]
    have hc : ((fun e : ℕ × ℕ => line_flow_sum m a e.1 e.2) ∘ fun j => (j, i))
        = fun j => line_flow_sum m a j i := rfl
    rw [hc, sum_filter_map_if m.set_nodes (fun j => j ≠ i ∧ j < i)
      (fun j => line_flow_sum m a j i)]
    have hcond : (fun j => if j ≠ i ∧ j < i then line_flow_sum m a j i else 0)
        = fun j => if i ≠ j ∧ i > j then line_flow_sum m a j i else 0 := by
      funext j
      exact if_congr (and_congr ne_comm Iff.rfl) rfl rfl
    rw [hcond]
  rw [h1, h2]

theorem lookup_build_none_of_not_mem (cfg : LPConfig)
    (df : List (ℕ × NodeRow)) (idx : ℕ) (h : idx ∉ df.map Prod.fst) :
    (build_power_demand cfg df).lookup idx = none := by
  induction df with
  | nil => rfl
  | cons p ps ih =>
    have h1 : idx ≠ p.1 ∧ idx ∉ ps.map Prod.fst := by simpa using h
    unfold build_power_demand
    rw [List.filterMap_cons]
    cases hw : p.2.GRID0_kW with
    | none => exact ih h1.2
    | some w =>
      simp only [List.lookup, beq_eq_false_iff_ne.mpr h1.1]
      exact ih h1.2

theorem lookup_build_none (cfg : LPConfig) (df : List (ℕ × NodeRow))
    (idx : ℕ) (row : NodeRow) (hnd : (df.map Prod.fst).Nodup)
    (hmem : (idx, row) ∈ df) (hnan : row.GRID0_kW = none) :
    (build_power_demand cfg df).lookup idx = none := by
  induction df with
  | nil => cases hmem
  | cons p ps ih =>
    rcases List.mem_cons.mp hmem with heq | hmem'
    · subst heq
      unfold build_power_demand
      rw [List.filterMap_cons]
      simp only [hnan]
      exact lookup_build_none_of_not_mem cfg ps idx
        (List.nodup_cons.mp (by simpa using hnd)).1
    · have hnd' : (ps.map Prod.fst).Nodup :=
        (List.nodup_cons.mp (by simpa using hnd)).2
      have hkey : idx ∈ ps.map Prod.fst := by
        exact List.mem_map_of_mem Prod.fst hmem'
      have hne : idx ≠ p.1 := by
        rintro rfl
        exact (List.nodup_cons.mp (by simpa using hnd)).1 hkey
      unfold build_power_demand
      rw [List.filterMap_cons]
      cases hw : p.2.GRID0_kW with
      | none => exact ih hnd' hmem'
      | some w =>
        simp only [List.lookup, beq_eq_false_iff_ne.mpr hne]
        exact ih hnd' hmem'

theorem lookup_build_some (cfg : LPConfig) (df : List (ℕ × NodeRow))
    (idx : ℕ) (row : NodeRow) (w : ℚ) (hnd : (df.map Prod.fst).Nodup)
    (hmem : (idx, row) ∈ df) (hw : row.GRID0_kW = some w) :
    (build_power_demand cfg df).lookup idx
      = some (3 * (w * 10 ^ 3) / (cfg.S_BASE * 10 ^ 6)) := by
  induction df with
  | nil => cases hmem
  | cons p ps ih =>
    rcases List.mem_cons.mp hmem with heq | hmem'
    · subst heq
      unfold build_power_demand
      rw [List.filterMap_cons]
      simp only [hw]
      simp [List.lookup]
    · have hnd' : (ps.map Prod.fst).Nodup :=
        (List.nodup_cons.mp (by simpa using hnd)).2
      have hkey : idx ∈ ps.map Prod.fst := by
        exact List.mem_map_of_mem Prod.fst hmem'
      have hne : idx ≠ p.1 := by
        rintro rfl
        exact (List.nodup_cons.mp (by simpa using hnd)).1 hkey
      unfold build_power_demand
      rw [List.filterMap_cons]
      cases hv : p.2.GRID0_kW with
      | none => exact ih hnd' hmem'
      | some v =>
        simp only [List.lookup, beq_eq_false_iff_ne.mpr hne]
        exact ih hnd' hmem'

-- ============================
-- Concrete fixtures used by witnesses and counterexamples
-- ============================

/-- A concrete configuration used in witness instances. -/
def cfgW : LPConfig := ⟨1, 1, 1, 6 / 100, 1, 1⟩

/-- A concrete cable type used in witness instances. -/
def techW : LineTech := ⟨1, 1, 1, 1, 1, 1⟩

/-- The all-zero variable assignment. -/
def assignZero : Assign :=
  ⟨fun _ _ _ => 0, fun _ => 0, fun _ => 0, fun _ _ _ => 0, fun _ _ _ => 0,
   fun _ => 0⟩

/-- An assignment with every var_x set to 1 and everything else zero. -/
def assignOne : Assign :=
  ⟨fun _ _ _ => 1, fun _ => 0, fun _ => 0, fun _ _ _ => 0, fun _ _ _ => 0,
   fun _ => 0⟩

/-- A concrete node table: one plant, one consumer with finite demand,
one consumer with NaN demand. -/
def dfW : List (ℕ × NodeRow) :=
  [(0, ⟨"PLANT", some 0⟩), (1, ⟨"CONSUMER", some 5⟩),
   (2, ⟨"CONSUMER", none⟩)]

/-- The model main() assembles from dfW. -/
def modelW : GridModel := mainModel cfgW dfW (fun _ => 100) (fun _ => techW) 1

/-- A model over empty node and edge sets (used to exhibit a feasible
point of the full constraint system). -/
def modelEmpty : GridModel :=
  ⟨[], [], [], [], [], ["investment", "om"], fun _ => 0, fun _ => techW, []⟩

-- ============================
-- Claim theorems
-- ============================

/-- C7: annuity_factor fails with a division-by-zero error (embedded as
none) when the interest rate i is 0 or the depreciation period n is 0;
in particular it does not silently return a value in that region. -/
theorem annuity_degenerate_c7 (n : ℤ) (i : ℚ) (h : n = 0 ∨ i = 0) :
    annuity_factor n i = none := by
  unfold annuity_factor
  rcases h with rfl | rfl
  · simp
  · simp

/-- Witness for C7 at n = 0, i = 6/100. -/
theorem annuity_degenerate_c7_witness :
    ((0 : ℤ) = 0 ∨ (6 / 100 : ℚ) = 0) ∧ annuity_factor 0 (6 / 100) = none :=
  ⟨Or.inl rfl, annuity_degenerate_c7 0 (6 / 100) (Or.inl rfl)⟩

/-- C8 counterexample: at n = 2, i = -2 both n and i are nonzero, yet
annuity_factor does not return the closed-form value: the denominator
(1+i)^n - 1 is zero and the code raises ZeroDivisionError (none). -/
theorem annuity_formula_c8_counterexample :
    (2 : ℤ) ≠ 0 ∧ (-2 : ℚ) ≠ 0 ∧
    annuity_factor 2 (-2) ≠
      some ((1 + (-2 : ℚ)) ^ (2 : ℤ) * (-2)
        / ((1 + (-2 : ℚ)) ^ (2 : ℤ) - 1)) := by
  refine ⟨by norm_num, by norm_num, ?_⟩
  unfold annuity_factor
  norm_num
  exact fun h => Option.noConfusion h

/-- C8 (amended): for n and i nonzero, excluding the two error regions of
the power-and-divide expression — the zero base raised to a negative
power (i = -1 with n < 0) and the zero denominator (1+i)^n = 1 (for
i nonzero, i = -2 with n even) — annuity_factor n i returns
(1+i)^n * i / ((1+i)^n - 1); at the excluded points the code raises
ZeroDivisionError instead. -/
theorem annuity_formula_c8 (n : ℤ) (i : ℚ) (hn : n ≠ 0) (hi : i ≠ 0)
    (hbase : ¬(1 + i = 0 ∧ n < 0)) (hpow : (1 + i) ^ n ≠ 1) :
    annuity_factor n i
      = some ((1 + i) ^ n * i / ((1 + i) ^ n - 1)) := by
  unfold annuity_factor
  rw [if_neg hbase, if_neg (sub_ne_zero.mpr hpow)]

/-- Witness for C8 (amended) at n = 1, i = 6/100. -/
theorem annuity_formula_c8_witness :
    ((1 : ℤ) ≠ 0) ∧ ((6 / 100 : ℚ) ≠ 0) ∧
    (¬(1 + (6 / 100 : ℚ) = 0 ∧ (1 : ℤ) < 0)) ∧
    ((1 + (6 / 100 : ℚ)) ^ (1 : ℤ) ≠ 1) ∧
    annuity_factor 1 (6 / 100)
      = some ((1 + (6 / 100 : ℚ)) ^ (1 : ℤ) * (6 / 100)
        / ((1 + (6 / 100 : ℚ)) ^ (1 : ℤ) - 1)) :=
  ⟨by norm_num, by norm_num, by norm_num, by norm_num,
   annuity_formula_c8 1 (6 / 100) (by norm_num) (by norm_num) (by norm_num)
     (by norm_num)⟩

/-- C3: the generated flow-linearisation constraint is exactly the spec
formula powerOverLine = (theta_i - theta_j) * (pi/180)
/ (length * x_per_km / 1000) + slack. -/
theorem power_over_line_matches_spec_c3 (m : GridModel) (a : Assign)
    (i j t : ℕ) :
    power_over_line_rule m a i j t ↔ spec_power_over_line m a i j t := by
  unfold power_over_line_rule spec_power_over_line
  rw [mul_div_assoc]

/-- C5: the investment-cost constraint generated by cost_rule states that
costs[investment] equals the spec sum of
2 * x[i,j,t] * length[i,j] * price[t] * annuity[t]. -/
theorem investment_cost_matches_spec_c5 (cfg : LPConfig) (m : GridModel)
    (a : Assign) :
    cost_rule cfg m a ("investment")
      = some (a.var_costs ("investment") = spec_investment_cost m a) := by
  have h : (m.set_edge.map fun e =>
      (m.set_linetypes.map fun t =>
        2 * (a.var_x e.1 e.2 t * m.dict_length e)
          * (m.dict_line_tech t).price_sgd_per_m
          * (m.dict_line_tech t).annuity_factor).sum).sum
      = spec_investment_cost m a := by
    unfold spec_investment_cost
    simp only [mul_assoc]
  unfold cost_rule
  rw [if_pos rfl, h]

/-- C10: both slack-bounding constraints use the big-M constant 1000000
exactly — slack <= (1 - x) * 1000000 and slack >= -((1 - x) * 1000000) —
and when x[i,j,t] = 1 the two bounds force slack[i,j,t] = 0. -/
theorem slack_bigM_c10 (m : GridModel) (a : Assign) (i j t : ℕ)
    (hx : a.var_x i j t = 1)
    (hp : slack_pos_rule m a i j t) (hn : slack_neg_rule m a i j t) :
    (slack_pos_rule m a i j t ↔
      a.var_slack i j t ≤ (1 - a.var_x i j t) * 1000000) ∧
    (slack_neg_rule m a i j t ↔
      a.var_slack i j t ≥ -((1 - a.var_x i j t) * 1000000)) ∧
    a.var_slack i j t = 0 := by
  refine ⟨Iff.rfl, ?_, ?_⟩
  · unfold slack_neg_rule
    constructor
    · intro h
      linarith
    · intro h
      linarith
  · unfold slack_pos_rule at hp
    unfold slack_neg_rule at hn
    rw [hx] at hp hn
    linarith

/-- Witness for C10 on a concrete model and an assignment with x = 1. -/
theorem slack_bigM_c10_witness :
    (slack_pos_rule modelW assignOne 0 1 0 ↔
      assignOne.var_slack 0 1 0 ≤ (1 - assignOne.var_x 0 1 0) * 1000000) ∧
    (slack_neg_rule modelW assignOne 0 1 0 ↔
      assignOne.var_slack 0 1 0 ≥ -((1 - assignOne.var_x 0 1 0) * 1000000)) ∧
    assignOne.var_slack 0 1 0 = 0 :=
  slack_bigM_c10 modelW assignOne 0 1 0 rfl
    (by simp [slack_pos_rule, assignOne])
    (by simp [slack_neg_rule, assignOne])

/-- C4: the model contains exactly one radiality constraint, and it states
that the sum of x[i,j,t] over all edges and all cable types equals the
number of nodes minus the number of substations. -/
theorem radial_constraint_c4 (m : GridModel) (a : Assign) :
    (radial_constraint_list m a).length = 1 ∧
    ∀ P ∈ radial_constraint_list m a, (P ↔ spec_radial m a) := by
  refine ⟨rfl, ?_⟩
  intro P hP
  rw [List.mem_singleton.mp hP]
  unfold radial_rule spec_radial
  rw [sum_flatMap_eq]

/-- Witness for C4 on a concrete model. -/
theorem radial_constraint_c4_witness :
    (radial_constraint_list modelW assignZero).length = 1 ∧
    (radial_rule modelW assignZero ↔ spec_radial modelW assignZero) :=
  ⟨(radial_constraint_c4 modelW assignZero).1,
   (radial_constraint_c4 modelW assignZero).2 (radial_rule modelW assignZero)
     (List.mem_singleton_self _)⟩

/-- C2: for every node i of the model (with the edge set built by main()
as the diagonal pair list over the node set), the generated power-balance
constraint states that the demand of i equals the spec inflow: substation
injection exactly when i is a substation, plus powerOverLine[i,j,t] over
edges where i is the lower index, minus powerOverLine[j,i,t] over edges
where i is the higher index, summed over all cable types. -/
theorem power_balance_matches_spec_c2 (m : GridModel) (a : Assign)
    (i : ℕ) (d : ℚ)
    (hedge : m.set_edge = diag_edges m.set_nodes)
    (hnd : m.set_nodes.Nodup) (hi : i ∈ m.set_nodes)
    (hd : m.dict_power_demand.lookup i = some d) :
    power_balance_rule m a i = some (d = spec_inflow m a i) := by
  simp only [power_balance_rule, hd, Option.map_some']
  rw [p_node_in_eq_spec_inflow m a i hedge hnd hi]

/-- Witness for C2 on the concrete model built from dfW, at node 1. -/
theorem power_balance_matches_spec_c2_witness :
    power_balance_rule modelW assignZero 1
      = some ((3 * ((5 : ℚ) * 10 ^ 3) / (cfgW.S_BASE * 10 ^ 6))
          = spec_inflow modelW assignZero 1) :=
  power_balance_matches_spec_c2 modelW assignZero 1
    (3 * ((5 : ℚ) * 10 ^ 3) / (cfgW.S_BASE * 10 ^ 6))
    rfl (by decide) (by decide) rfl

/-- C1 counterexample: node 2 of dfW is a consumer with NaN demand.  It is
excluded from the power-balance demand map as the claim states, but the
power-balance rule for node 2 then raises KeyError (none): no constraint
with zero forced demand is generated, so model assembly does not complete. -/
theorem power_balance_nan_c1_counterexample :
    2 ∈ modelW.set_nodes ∧
    modelW.dict_power_demand.lookup 2 = none ∧
    power_balance_rule modelW assignZero 2 = none :=
  ⟨by decide, rfl, rfl⟩

/-- C1 (amended): a node whose demand is NaN/absent is excluded from the
power-balance demand map, but the power-balance rule for that node then
fails with a KeyError (none) instead of producing a constraint with zero
forced demand, so model assembly raises rather than completing. -/
theorem power_balance_nan_c1 (cfg : LPConfig) (df : List (ℕ × NodeRow))
    (dl : ℕ × ℕ → ℚ) (lt : ℕ → LineTech) (nt : ℕ) (a : Assign)
    (idx : ℕ) (row : NodeRow)
    (hnd : (df.map Prod.fst).Nodup) (hmem : (idx, row) ∈ df)
    (hnan : row.GRID0_kW = none) :
    (mainModel cfg df dl lt nt).dict_power_demand.lookup idx = none ∧
    power_balance_rule (mainModel cfg df dl lt nt) a idx = none := by
  have h := lookup_build_none cfg df idx row hnd hmem hnan
  refine ⟨h, ?_⟩
  unfold power_balance_rule
  rw [show (mainModel cfg df dl lt nt).dict_power_demand
      = build_power_demand cfg df from rfl, h]
  rfl

/-- Witness for C1 (amended) at the concrete NaN-demand node 2 of dfW. -/
theorem power_balance_nan_c1_witness :
    modelW.dict_power_demand.lookup 2 = none ∧
    power_balance_rule modelW assignZero 2 = none :=
  power_balance_nan_c1 cfgW dfW (fun _ => 100) (fun _ => techW) 1
    assignZero 2 ⟨"CONSUMER", none⟩ (by decide)
    (by simp [dfW]) rfl

/-- C9: a node with finite demand w (in kW) is stored in the power-balance
demand map as 3 * (w * 10^3) / (S_BASE * 10^6): the kW value is converted
to per-unit with an additional factor 3. -/
theorem demand_scaling_c9 (cfg : LPConfig) (df : List (ℕ × NodeRow))
    (dl : ℕ × ℕ → ℚ) (lt : ℕ → LineTech) (nt : ℕ)
    (idx : ℕ) (row : NodeRow) (w : ℚ)
    (hnd : (df.map Prod.fst).Nodup) (hmem : (idx, row) ∈ df)
    (hw : row.GRID0_kW = some w) :
    (mainModel cfg df dl lt nt).dict_power_demand.lookup idx
      = some (3 * (w * 10 ^ 3) / (cfg.S_BASE * 10 ^ 6)) :=
  lookup_build_some cfg df idx row w hnd hmem hw

/-- Witness for C9 at the concrete consumer node 1 of dfW (demand 5 kW). -/
theorem demand_scaling_c9_witness :
    modelW.dict_power_demand.lookup 1
      = some (3 * ((5 : ℚ) * 10 ^ 3) / (cfgW.S_BASE * 10 ^ 6)) :=
  demand_scaling_c9 cfgW dfW (fun _ => 100) (fun _ => techW) 1
    1 ⟨"CONSUMER", some 5⟩ 5 (by decide) (by simp [dfW]) rfl

/-- C6: the O&M-cost constraint states costs[om] = costs[investment]
times the om factor of cable type 0; consequently that identity holds in
every feasible solution of the assembled model. -/
theorem om_cost_identity_c6 (cfg : LPConfig) (m : GridModel) (a : Assign)
    (hfeas : feasible cfg m a) (hom : "om" ∈ m.set_cost_type) :
    a.var_costs ("om")
      = a.var_costs ("investment") * (m.dict_line_tech 0).om_factor := by
  have h := hfeas.2.2.2.2.2 ("om") hom
  have hr : cost_rule cfg m a ("om")
      = some (a.var_costs ("om")
          = a.var_costs ("investment") * (m.dict_line_tech 0).om_factor) := rfl
  rw [hr] at h
  exact h

/-- Witness for C6: a concrete feasible point of the full constraint
system of modelEmpty (all-zero assignment). -/
theorem om_cost_identity_c6_witness :
    assignZero.var_costs ("om")
      = assignZero.var_costs ("investment")
        * (modelEmpty.dict_line_tech 0).om_factor :=
  om_cost_identity_c6 cfgW modelEmpty assignZero
    ⟨by simp [modelEmpty],
     by simp [modelEmpty],
     by simp [modelEmpty],
     by simp [radial_rule, modelEmpty],
     by simp [modelEmpty],
     by
      intro c hc
      simp only [modelEmpty] at hc
      rcases List.mem_cons.mp hc with rfl | hc'
      · exact rfl
      · rw [List.mem_singleton.mp hc']
        exact (zero_mul _).symm⟩
    (by decide)
